import Mathlib

/-!
Shallow embedding of the `reverse_mpdecimate` video filter
(`libavfilter/vf_reverse_mpdecimate.c`) and proofs about its two parts:
the block-difference estimator (`diff_planes`, `is_frame_different`) and
the run-length decimator (`filter_frame`).

Modelling conventions:
* A plane is a total function `Nat → Nat → Nat` giving the byte value at
  column `x`, row `y`; the C stride/linesize is memory layout and is
  absorbed by the functional representation.
* C `int` values become `Int` (thresholds may be negative in the option
  ranges), sizes and counters become `Nat`.
* The C `float frac` becomes `ℚ`; the C cast `(int)` truncates toward
  zero, modelled by `truncQ`.
* The fallible frame-clone and the downstream `ff_filter_frame` call are
  modelled as explicit oracle arguments in `filter_frame_fallible`.
-/

namespace ReverseMpdecimate

/-- A single image plane: byte value at column `x`, row `y`. -/
abbrev Plane := Nat → Nat → Nat

/-- The configuration fields of `DecimateContext` used by the algorithm. -/
structure DecimateContext where
  lo : Int
  hi : Int
  frac : ℚ
  min_dup_count : Nat

/-- C cast from a real value to `int`: truncation toward zero. -/
def truncQ (q : ℚ) : Int := if 0 ≤ q then ⌊q⌋ else -⌊-q⌋

/-- The 8x8 sum-of-absolute-differences obtained from
`av_pixelutils_get_sad_fn(3, 3, 0, ctx)`, applied at offset `(x, y)` of
the two planes. -/
def sad8x8 (cur ref : Plane) (x y : Nat) : Nat :=
  ∑ i ∈ Finset.range 8, ∑ j ∈ Finset.range 8,
    ((cur (x + j) (y + i) : Int) - (ref (x + j) (y + i) : Int)).natAbs

/-- The values taken by a C loop `for (v = start; v < bound; v += step)`,
in order. -/
def stepPositions (start step bound : Nat) : List Nat :=
  (List.range ((bound - start + step - 1) / step)).map (fun i => start + step * i)

/-- The `(x, y)` window offsets scanned by `diff_planes`, in loop order:
`y` from 0 by 4 while `y < h-7` (outer), `x` from 8 by 4 while `x < w-7`
(inner). -/
def samplePoints (w h : Nat) : List (Nat × Nat) :=
  (stepPositions 0 4 (h - 7)).flatMap
    (fun y => (stepPositions 8 4 (w - 7)).map (fun x => (x, y)))

/-- The block budget `int t = (w/16)*(h/16)*decimate->frac` of
`diff_planes` (integer division, float multiply, truncating cast). -/
def blockBudget (dc : DecimateContext) (w h : Nat) : Int :=
  truncQ (((w / 16) * (h / 16) : Nat) * dc.frac)

/-- The scan loop of `diff_planes`: walk the sampled windows carrying the
counter `c`; return 1 (true) as soon as a SAD exceeds `hi`, or as soon as
the count of SADs exceeding `lo` exceeds the budget `t`; return 0 (false)
when the scan completes. -/
def diffPlanesGo (dc : DecimateContext) (cur ref : Plane) (t : Int) :
    List (Nat × Nat) → Nat → Bool
  | [], _ => false
  | p :: rest, c =>
    let d := sad8x8 cur ref p.1 p.2
    if dc.hi < (d : Int) then true
    else if dc.lo < (d : Int) then
      if t < ((c + 1 : Nat) : Int) then true
      else diffPlanesGo dc cur ref t rest (c + 1)
    else diffPlanesGo dc cur ref t rest c

/-- `diff_planes`: return 1 (true) if the two planes are different,
0 (false) otherwise. -/
def diff_planes (dc : DecimateContext) (cur ref : Plane) (w h : Nat) : Bool :=
  diffPlanesGo dc cur ref (blockBudget dc w h) (samplePoints w h) 0

/-- `AV_CEIL_RSHIFT(a, shift)`: ceiling division by `2 ^ shift`. -/
def ceilRshift (a s : Nat) : Nat := (a + (2 ^ s - 1)) / 2 ^ s

/-- `is_frame_different`: scan the planes present in the reference frame;
planes 1 and 2 use the chroma-subsampled dimensions; the frame is
different as soon as some plane is. Frames are given as the list of their
present planes. -/
def is_frame_different (dc : DecimateContext) (hsub vsub w h : Nat)
    (cur ref : List Plane) : Bool :=
  (List.range ref.length).any fun plane =>
    let hs := if plane = 1 ∨ plane = 2 then hsub else 0
    let vs := if plane = 1 ∨ plane = 2 then vsub else 0
    diff_planes dc (cur.getD plane (fun _ _ => 0)) (ref.getD plane (fun _ _ => 0))
      (ceilRshift w hs) (ceilRshift h vs)

/-- The mutable decimator state: the retained reference frame (if any)
and the duplicate-run counter `dup_count`. `F` is the frame type; the
decimator itself only consumes the classifier verdicts. -/
structure DecState (F : Type) where
  ref : Option F
  dup_count : Nat

/-- The state at stream start: no reference, counter 0 (the context is
zero-initialized by the framework). -/
def initState (F : Type) : DecState F := ⟨none, 0⟩

/-- The counter update at the head of `filter_frame`: reset to 0 when a
reference exists and the frame is classified different from it, else
increment. -/
def nextDupCount {F : Type} (differs : F → F → Bool) (st : DecState F) (cur : F) : Nat :=
  match st.ref with
  | some r => if differs cur r then 0 else st.dup_count + 1
  | none => st.dup_count + 1

/-- `filter_frame` on the success path (all clones succeed, downstream
accepts): update the counter, emit the frame iff the counter equals
`min_dup_count`, and unconditionally replace the reference with the
current frame. Returns the new state and the list of emitted frames. -/
def filter_frame {F : Type} (differs : F → F → Bool) (mdc : Nat)
    (st : DecState F) (cur : F) : DecState F × List F :=
  let dup := nextDupCount differs st cur
  (⟨some cur, dup⟩, if dup = mdc then [cur] else [])

/-- Feed a list of frames through `filter_frame`, collecting all emitted
frames in order. -/
def run_frames {F : Type} (differs : F → F → Bool) (mdc : Nat) :
    DecState F → List F → DecState F × List F
  | st, [] => (st, [])
  | st, f :: fs =>
    let r := filter_frame differs mdc st f
    let rest := run_frames differs mdc r.1 fs
    (rest.1, r.2 ++ rest.2)

/-- `filter_frame` with its two fallible `av_frame_clone` calls and the
downstream `ff_filter_frame` call made explicit: `emitClone` is the clone
passed downstream (`none` models a failed clone), `downstreamRet` the
return code of `ff_filter_frame` on it, and `refClone` the clone stored
as the new reference (`none` models a failed clone, which the C code
stores without checking). Returns the C return code, the new state and
the frames delivered downstream. On a negative downstream return the
function returns early: the counter is already written but the reference
is untouched. -/
def filter_frame_fallible {F : Type} (differs : F → F → Bool) (mdc : Nat)
    (st : DecState F) (cur : F) (emitClone : Option F)
    (downstreamRet : Option F → Int) (refClone : Option F) :
    Int × DecState F × List F :=
  let dup := nextDupCount differs st cur
  if dup = mdc ∧ downstreamRet emitClone < 0 then
    (downstreamRet emitClone, ⟨st.ref, dup⟩, [])
  else
    (0, ⟨refClone, dup⟩, if dup = mdc then emitClone.toList else [])

/-- The configuration of the end-to-end scenario:
`min_dup_count=3, hi=768, lo=320, frac=0.33`. -/
def scenarioContext : DecimateContext := ⟨320, 768, 33 / 100, 3⟩

/-- Scenario frames are identified by their 1-based index; frames 1–4 are
uniformly 0, frames 5–8 uniformly 100, so frames within a group are
classified identical and frames across groups very different. -/
def scenarioPlane (k : Nat) : Plane := fun _ _ => if k ≤ 4 then 0 else 100

/-- A scenario frame: three planes (4:2:0 layout) of identical content. -/
def scenarioPlanes (k : Nat) : List Plane :=
  [scenarioPlane k, scenarioPlane k, scenarioPlane k]

/-- The classifier of the scenario: the real estimator on 16x8 frames with
4:2:0 subsampling under `scenarioContext`. -/
def scenarioDiffers (a b : Nat) : Bool :=
  is_frame_different scenarioContext 1 1 16 8 (scenarioPlanes a) (scenarioPlanes b)

/-- A plane of constant byte value, used in concrete instances. -/
def constPlane (v : Nat) : Plane := fun _ _ => v

/-- Outputs of a run in which every classification is "identical": starting
from counter `c`, the counter takes values `c+1, c+2, ...`, so the single
emission happens at the frame where it hits `mdc`, when that frame exists. -/
theorem run_frames_all_identical {F : Type} (mdc : Nat) (l : List F)
    (r0 : Option F) (c : Nat) :
    (run_frames (fun _ _ => false) mdc ⟨r0, c⟩ l).2 =
      if c < mdc then (l[mdc - c - 1]?).toList else [] := by
  induction l generalizing r0 c with
  | nil => simp [run_frames]
  | cons f fs ih =>
    have hdup : nextDupCount (fun _ _ => false) ⟨r0, c⟩ f = c + 1 := by
      cases r0 <;> rfl
    simp only [run_frames, filter_frame, hdup, ih]
    rcases Nat.lt_trichotomy (c + 1) mdc with hlt | heq | hgt
    · have hc : c < mdc := by omega
      have hne : ¬(c + 1 = mdc) := by omega
      have hidx : mdc - c - 1 = (mdc - (c + 1) - 1) + 1 := by omega
      simp [hne, hlt, hc, hidx]
    · have hc : c < mdc := by omega
      have hidx : mdc - c - 1 = 0 := by omega
      simp [heq, hc, hidx]
    · have hne : ¬(c + 1 = mdc) := by omega
      have hc : ¬(c < mdc) := by omega
      simp [hne, hc]
      omega

/-- The scan loop of `diff_planes` is a decision procedure for the
disjunction "some SAD exceeds `hi`, or the total count of SADs exceeding
`lo`, added to the carried counter, exceeds the budget", provided the
carried counter has not yet exceeded the budget. -/
theorem diffPlanesGo_eq_true_iff (dc : DecimateContext) (cur ref : Plane)
    (t : Int) (l : List (Nat × Nat)) :
    ∀ c : Nat, (c : Int) ≤ t →
      (diffPlanesGo dc cur ref t l c = true ↔
        (∃ p ∈ l, dc.hi < (sad8x8 cur ref p.1 p.2 : Int)) ∨
        t < ((c + l.countP fun p => decide (dc.lo < (sad8x8 cur ref p.1 p.2 : Int))) : Int)) := by
  induction l with
  | nil =>
    intro c hc
    simp only [diffPlanesGo, List.countP_nil, List.not_mem_nil]
    simp
    omega
  | cons p rest ih =>
    intro c hc
    by_cases h1 : dc.hi < (sad8x8 cur ref p.1 p.2 : Int)
    · simp only [diffPlanesGo, h1, if_true]
      simp only [true_iff]
      exact Or.inl ⟨p, List.mem_cons_self p rest, h1⟩
    · by_cases h2 : dc.lo < (sad8x8 cur ref p.1 p.2 : Int)
      · by_cases h3 : t < ((c + 1 : Nat) : Int)
        · simp only [diffPlanesGo, h1, h2, h3, if_true, if_false]
          simp only [true_iff, List.countP_cons, h2, decide_true_eq_true]
          refine Or.inr ?_
          push_cast at h3 ⊢
          omega
        · simp only [diffPlanesGo, h1, h2, h3, if_true, if_false]
          rw [ih (c + 1) (by push_cast at h3 ⊢; omega)]
          rw [List.exists_mem_cons_iff, List.countP_cons]
          simp only [h1, h2, decide_true_eq_true, false_or]
          constructor
          · rintro (he | hcnt)
            · exact Or.inl he
            · refine Or.inr ?_; push_cast at hcnt ⊢; omega
          · rintro (he | hcnt)
            · exact Or.inl he
            · refine Or.inr ?_; push_cast at hcnt ⊢; omega
      · simp only [diffPlanesGo, h1, h2, if_false]
        rw [ih c hc]
        rw [List.exists_mem_cons_iff, List.countP_cons]
        simp [h1, h2]

/-- With a nonnegative `frac` the block budget is nonnegative (the C cast
truncates a nonnegative product). -/
theorem blockBudget_nonneg (dc : DecimateContext) (w h : Nat)
    (hfrac : 0 ≤ dc.frac) : 0 ≤ blockBudget dc w h := by
  unfold blockBudget truncQ
  have hq : (0 : ℚ) ≤ ((w / 16) * (h / 16) : Nat) * dc.frac :=
    mul_nonneg (Nat.cast_nonneg _) hfrac
  rw [if_pos hq]
  exact Int.floor_nonneg.mpr hq

/-- The result of `diff_planes` is the disjunction "some sampled window
has SAD above `hi`, or more than the budget many sampled windows have SAD
above `lo`", whenever the budget is nonnegative. -/
theorem diff_planes_eq_true_iff (dc : DecimateContext) (cur ref : Plane)
    (w h : Nat) (h0 : 0 ≤ blockBudget dc w h) :
    diff_planes dc cur ref w h = true ↔
      (∃ p ∈ samplePoints w h, dc.hi < (sad8x8 cur ref p.1 p.2 : Int)) ∨
      blockBudget dc w h <
        (((samplePoints w h).countP
          fun p => decide (dc.lo < (sad8x8 cur ref p.1 p.2 : Int))) : Int) := by
  have := diffPlanesGo_eq_true_iff dc cur ref (blockBudget dc w h)
    (samplePoints w h) 0 (by simpa using h0)
  simpa [diff_planes] using this

/-- The block budget is monotone in `frac` (for `frac` in the option
domain, i.e. nonnegative). -/
theorem blockBudget_mono (dc dcs : DecimateContext) (w h : Nat)
    (h0 : 0 ≤ dc.frac) (hf : dc.frac ≤ dcs.frac) :
    blockBudget dc w h ≤ blockBudget dcs w h := by
  unfold blockBudget truncQ
  have hq : (0 : ℚ) ≤ ((w / 16) * (h / 16) : Nat) * dc.frac :=
    mul_nonneg (Nat.cast_nonneg _) h0
  have hq2 : (((w / 16) * (h / 16) : Nat) : ℚ) * dc.frac ≤
      (((w / 16) * (h / 16) : Nat) : ℚ) * dcs.frac :=
    mul_le_mul_of_nonneg_left hf (Nat.cast_nonneg _)
  rw [if_pos hq, if_pos (le_trans hq hq2)]
  exact Int.floor_le_floor hq2

/-- A plane smaller than 16 in either dimension has block budget 0. -/
theorem blockBudget_small (dc : DecimateContext) (w h : Nat)
    (hsmall : w < 16 ∨ h < 16) : blockBudget dc w h = 0 := by
  unfold blockBudget truncQ
  have hz : (w / 16) * (h / 16) = 0 := by
    rcases hsmall with hw | hh
    · rw [Nat.div_eq_of_lt hw, zero_mul]
    · rw [Nat.div_eq_of_lt hh, mul_zero]
  rw [hz]
  simp

/-- The SAD of two pointwise-equal planes is zero at every offset. -/
theorem sad8x8_eq_zero (cur ref : Plane) (heq : ∀ x y, cur x y = ref x y)
    (x y : Nat) : sad8x8 cur ref x y = 0 := by
  unfold sad8x8
  refine Finset.sum_eq_zero fun i _ => Finset.sum_eq_zero fun j _ => ?_
  rw [heq]
  simp

/-- C1 fails as frozen at `min_dup_count = 0`: a single frame processed
from the initial state is classified identical (no reference exists), so
`N = 1 ≥ 0 = min_dup_count`, yet zero frames are emitted instead of
exactly one. -/
theorem c1_counterexample :
    0 ≤ ([()] : List Unit).length ∧
    ((run_frames (fun _ _ => false) 0 (initState Unit) [()]).2).length ≠ 1 := by
  decide

/-- C1 (amended: `min_dup_count ≥ 1`): starting from the initial state and
feeding `N` frames all classified identical to the retained reference,
the filter emits exactly the frame at 1-indexed position `min_dup_count` —
one emission when `N ≥ min_dup_count`, zero when `N < min_dup_count`. -/
theorem c1_run_length_correctness {F : Type} (l : List F) (mdc : Nat)
    (hmdc : 1 ≤ mdc) :
    (run_frames (fun _ _ => false) mdc (initState F) l).2 = (l[mdc - 1]?).toList ∧
    (mdc ≤ l.length →
      ((run_frames (fun _ _ => false) mdc (initState F) l).2).length = 1) ∧
    (l.length < mdc →
      (run_frames (fun _ _ => false) mdc (initState F) l).2 = []) := by
  have h := run_frames_all_identical mdc l none 0
  have h0 : 0 < mdc := hmdc
  rw [show (initState F) = (⟨none, 0⟩ : DecState F) from rfl, h, if_pos h0]
  simp only [Nat.sub_zero]
  refine ⟨trivial, fun hlen => ?_, fun hlen => ?_⟩
  · rw [List.getElem?_eq_getElem (by omega : mdc - 1 < l.length)]
    rfl
  · rw [List.getElem?_eq_none (by omega : l.length ≤ mdc - 1)]
    rfl

/-- Witness for C1: `min_dup_count = 2` over a 3-frame identical run emits
exactly the second frame. -/
theorem c1_run_length_correctness_witness :
    1 ≤ 2 ∧
    ((run_frames (fun _ _ => false) 2 (initState Nat) [5, 6, 7]).2 =
        (([5, 6, 7] : List Nat)[2 - 1]?).toList ∧
      (2 ≤ ([5, 6, 7] : List Nat).length →
        ((run_frames (fun _ _ => false) 2 (initState Nat) [5, 6, 7]).2).length = 1) ∧
      (([5, 6, 7] : List Nat).length < 2 →
        (run_frames (fun _ _ => false) 2 (initState Nat) [5, 6, 7]).2 = [])) :=
  ⟨by decide, c1_run_length_correctness [5, 6, 7] 2 (by decide)⟩

/-- C2 fails as frozen: with `min_dup_count = 3`, `hi = 768`, `lo = 320`,
`frac = 0.33`, the 8-frame scenario (frames 1–4 mutually identical, frames
5–8 mutually identical, groups very different) does not emit frames 4 and
7. -/
theorem c2_counterexample :
    (run_frames scenarioDiffers 3 (initState Nat) [1, 2, 3, 4, 5, 6, 7, 8]).2 ≠
      [4, 7] := by
  decide

/-- C2 (amended): the scenario emits frames 3 and 8 — the duplicate counter
runs `1,2,3,4` over the first group (the stream-initial frame already
increments it) and `0,1,2,3` after the break, hitting `min_dup_count = 3`
at frames 3 and 8. -/
theorem c2_scenario_amended :
    (run_frames scenarioDiffers 3 (initState Nat) [1, 2, 3, 4, 5, 6, 7, 8]).2 =
      [3, 8] := by
  decide

/-- C3 fails as frozen: with `min_dup_count = 0` the very first frame is
not emitted — the counter is incremented to 1 before the equality test. -/
theorem c3_counterexample :
    ((filter_frame (fun _ _ => false) 0 (initState Unit) ()).2).length ≠ 1 := by
  decide

/-- C3 (amended): with `min_dup_count = 0` a call to `filter_frame` emits
the frame iff a reference exists and the frame is classified different from
it (only then is the counter reset to 0); frames extending a run, and the
first frame of the stream, are dropped. -/
theorem c3_min_dup_zero_amended {F : Type} (differs : F → F → Bool)
    (st : DecState F) (cur : F) :
    (filter_frame differs 0 st cur).2 =
      (match st.ref with
        | some r => if differs cur r then [cur] else []
        | none => []) := by
  unfold filter_frame nextDupCount
  cases st.ref with
  | none => simp
  | some r => by_cases hd : differs cur r <;> simp [hd]

/-- C4: `diff_planes` returns 1 iff, over the sampled 8x8 windows, either
some window SAD exceeds `hi`, or the number of windows whose SAD exceeds
`lo` exceeds the block budget `t = (w/16)*(h/16)*frac`, for `frac` in its
option domain. -/
theorem c4_diff_planes_characterization (dc : DecimateContext)
    (cur ref : Plane) (w h : Nat) (hfrac : 0 ≤ dc.frac) :
    diff_planes dc cur ref w h = true ↔
      (∃ p ∈ samplePoints w h, dc.hi < (sad8x8 cur ref p.1 p.2 : Int)) ∨
      blockBudget dc w h <
        (((samplePoints w h).countP
          fun p => decide (dc.lo < (sad8x8 cur ref p.1 p.2 : Int))) : Int) :=
  diff_planes_eq_true_iff dc cur ref w h (blockBudget_nonneg dc w h hfrac)

/-- Witness for C4 on a 16x8 plane pair differing by 100 everywhere. -/
theorem c4_diff_planes_characterization_witness :
    (0 : ℚ) ≤ DecimateContext.frac ⟨320, 768, 0, 10⟩ ∧
    (diff_planes ⟨320, 768, 0, 10⟩ (constPlane 100) (constPlane 0) 16 8 = true ↔
      (∃ p ∈ samplePoints 16 8,
          DecimateContext.hi ⟨320, 768, 0, 10⟩ <
            (sad8x8 (constPlane 100) (constPlane 0) p.1 p.2 : Int)) ∨
      blockBudget ⟨320, 768, 0, 10⟩ 16 8 <
        (((samplePoints 16 8).countP
          fun p => decide (DecimateContext.lo ⟨320, 768, 0, 10⟩ <
            (sad8x8 (constPlane 100) (constPlane 0) p.1 p.2 : Int))) : Int)) :=
  ⟨le_refl 0,
    c4_diff_planes_characterization ⟨320, 768, 0, 10⟩ (constPlane 100)
      (constPlane 0) 16 8 (le_refl 0)⟩

/-- C5: a "different" verdict survives lowering any of the thresholds: if
`diff_planes` returns 1 under `dcs` and `dc.lo ≤ dcs.lo`, `dc.hi ≤ dcs.hi`,
`dc.frac ≤ dcs.frac` (with `dc.frac` nonnegative as in the option domain),
then it returns 1 under `dc` on the same planes and dimensions. -/
theorem c5_threshold_monotonicity (cur ref : Plane) (w h : Nat)
    (dc dcs : DecimateContext)
    (hlo : dc.lo ≤ dcs.lo) (hhi : dc.hi ≤ dcs.hi)
    (hfrac : dc.frac ≤ dcs.frac) (h0 : 0 ≤ dc.frac)
    (hd : diff_planes dcs cur ref w h = true) :
    diff_planes dc cur ref w h = true := by
  have h0s : 0 ≤ dcs.frac := le_trans h0 hfrac
  rw [diff_planes_eq_true_iff dcs cur ref w h (blockBudget_nonneg dcs w h h0s)] at hd
  rw [diff_planes_eq_true_iff dc cur ref w h (blockBudget_nonneg dc w h h0)]
  rcases hd with ⟨p, hp, hgt⟩ | hcnt
  · exact Or.inl ⟨p, hp, lt_of_le_of_lt hhi hgt⟩
  · refine Or.inr (lt_of_le_of_lt (blockBudget_mono dc dcs w h h0 hfrac) ?_)
    refine lt_of_lt_of_le hcnt ?_
    have hmono : (samplePoints w h).countP
        (fun p => decide (dcs.lo < (sad8x8 cur ref p.1 p.2 : Int))) ≤
        (samplePoints w h).countP
        (fun p => decide (dc.lo < (sad8x8 cur ref p.1 p.2 : Int))) := by
      apply List.countP_mono_left
      intro a _ ha
      simp only [decide_eq_true_eq] at ha ⊢
      exact lt_of_le_of_lt hlo ha
    exact_mod_cast hmono

/-- Witness for C5: a verdict obtained at `(hi, lo) = (768, 320)` persists
at `(0, 0)` with the same `frac`. -/
theorem c5_threshold_monotonicity_witness :
    DecimateContext.lo ⟨0, 0, 0, 10⟩ ≤ DecimateContext.lo ⟨320, 768, 0, 10⟩ ∧
    DecimateContext.hi ⟨0, 0, 0, 10⟩ ≤ DecimateContext.hi ⟨320, 768, 0, 10⟩ ∧
    DecimateContext.frac ⟨0, 0, 0, 10⟩ ≤ DecimateContext.frac ⟨320, 768, 0, 10⟩ ∧
    (0 : ℚ) ≤ DecimateContext.frac ⟨0, 0, 0, 10⟩ ∧
    diff_planes ⟨320, 768, 0, 10⟩ (constPlane 100) (constPlane 0) 16 8 = true ∧
    diff_planes ⟨0, 0, 0, 10⟩ (constPlane 100) (constPlane 0) 16 8 = true :=
  ⟨by decide, by decide, le_refl 0, le_refl 0, by decide,
    c5_threshold_monotonicity (constPlane 100) (constPlane 0) 16 8
      ⟨0, 0, 0, 10⟩ ⟨320, 768, 0, 10⟩ (by decide) (by decide) (le_refl 0)
      (le_refl 0) (by decide)⟩

/-- C6 fails as frozen: `hi` ranges over all C ints, and at the in-range
value `hi = -1` two identical planes are declared different — the zero SAD
of the first sampled window already exceeds `hi`. -/
theorem c6_counterexample :
    diff_planes ⟨0, -1, 0, 10⟩ (constPlane 0) (constPlane 0) 16 8 = true := by
  decide

/-- C6 (amended: nonnegative `hi` and `lo`): two pointwise-equal planes
are declared identical for all nonnegative `hi` and `lo` and all `frac` in
its domain, since every sampled SAD is zero. -/
theorem c6_identical_planes_amended (dc : DecimateContext) (cur ref : Plane)
    (w h : Nat) (hhi : 0 ≤ dc.hi) (hlo : 0 ≤ dc.lo) (hfrac : 0 ≤ dc.frac)
    (heq : ∀ x y, cur x y = ref x y) :
    diff_planes dc cur ref w h = false := by
  have hb := blockBudget_nonneg dc w h hfrac
  rw [Bool.eq_false_iff]
  intro hd
  rw [diff_planes_eq_true_iff dc cur ref w h hb] at hd
  rcases hd with ⟨p, _, hgt⟩ | hcnt
  · rw [sad8x8_eq_zero cur ref heq] at hgt
    simp only [Nat.cast_zero] at hgt
    omega
  · have hz : (samplePoints w h).countP
        (fun p => decide (dc.lo < (sad8x8 cur ref p.1 p.2 : Int))) = 0 := by
      rw [List.countP_eq_zero]
      intro a _
      rw [sad8x8_eq_zero cur ref heq]
      simp only [Nat.cast_zero, decide_eq_true_eq]
      omega
    rw [hz] at hcnt
    simp only [Nat.cast_zero] at hcnt
    omega

/-- Witness for C6 on a constant 16x8 plane compared with itself. -/
theorem c6_identical_planes_amended_witness :
    (0 : Int) ≤ DecimateContext.hi ⟨0, 0, 0, 10⟩ ∧
    (0 : Int) ≤ DecimateContext.lo ⟨0, 0, 0, 10⟩ ∧
    (0 : ℚ) ≤ DecimateContext.frac ⟨0, 0, 0, 10⟩ ∧
    (∀ x y, constPlane 7 x y = constPlane 7 x y) ∧
    diff_planes ⟨0, 0, 0, 10⟩ (constPlane 7) (constPlane 7) 16 8 = false :=
  ⟨le_refl 0, le_refl 0, le_refl 0, fun _ _ => rfl,
    c6_identical_planes_amended ⟨0, 0, 0, 10⟩ (constPlane 7) (constPlane 7)
      16 8 (le_refl 0) (le_refl 0) (le_refl 0) (fun _ _ => rfl)⟩

/-- C7: on a plane smaller than 16 in either dimension the block budget is
0, so one sampled window with SAD above `lo` already makes `diff_planes`
return 1. -/
theorem c7_small_plane_budget (dc : DecimateContext) (cur ref : Plane)
    (w h : Nat) (hsmall : w < 16 ∨ h < 16)
    (hex : ∃ p ∈ samplePoints w h, dc.lo < (sad8x8 cur ref p.1 p.2 : Int)) :
    blockBudget dc w h = 0 ∧ diff_planes dc cur ref w h = true := by
  have hb := blockBudget_small dc w h hsmall
  refine ⟨hb, ?_⟩
  rw [diff_planes_eq_true_iff dc cur ref w h (le_of_eq hb.symm)]
  refine Or.inr ?_
  rw [hb]
  rcases hex with ⟨p, hp, hgt⟩
  have hpos : 0 < (samplePoints w h).countP
      (fun q => decide (dc.lo < (sad8x8 cur ref q.1 q.2 : Int))) :=
    List.countP_pos_iff.mpr ⟨p, hp, by simpa using hgt⟩
  exact_mod_cast hpos

/-- Witness for C7 on a 16x8 plane pair (height 8 < 16) with one sampled
window of SAD 6400 > 320. -/
theorem c7_small_plane_budget_witness :
    (16 < 16 ∨ 8 < 16) ∧
    (∃ p ∈ samplePoints 16 8,
      DecimateContext.lo ⟨320, 768, 0, 10⟩ <
        (sad8x8 (constPlane 100) (constPlane 0) p.1 p.2 : Int)) ∧
    (blockBudget ⟨320, 768, 0, 10⟩ 16 8 = 0 ∧
      diff_planes ⟨320, 768, 0, 10⟩ (constPlane 100) (constPlane 0) 16 8 = true) :=
  ⟨Or.inr (by decide), by decide,
    c7_small_plane_budget ⟨320, 768, 0, 10⟩ (constPlane 100) (constPlane 0)
      16 8 (Or.inr (by decide)) (by decide)⟩

/-- C8 fails as frozen: if the clone stored as the new reference fails
(`refClone = none`) on a frame that is not emitted, `filter_frame` still
returns 0 and continues with an absent reference — the failure does not
propagate to the caller. -/
theorem c8_counterexample :
    (filter_frame_fallible (fun _ _ => false) 10 ⟨some (), 0⟩ () (some ())
        (fun _ => 0) none).1 = 0 ∧
    (filter_frame_fallible (fun _ _ => false) 10 ⟨some (), 0⟩ () (some ())
        (fun _ => 0) none).2.1.ref = none := by
  decide

/-- C8 (amended): a failed reference clone is silently absorbed: whenever
the emission path does not itself fail, `filter_frame` returns 0 and
installs the absent clone as the new reference; only a negative downstream
return on the emission path propagates as the return code. -/
theorem c8_clone_failure_amended {F : Type} (differs : F → F → Bool)
    (mdc : Nat) (st : DecState F) (cur : F) (emitClone : Option F)
    (ds : Option F → Int)
    (hok : ¬(nextDupCount differs st cur = mdc ∧ ds emitClone < 0)) :
    (filter_frame_fallible differs mdc st cur emitClone ds none).1 = 0 ∧
    (filter_frame_fallible differs mdc st cur emitClone ds none).2.1.ref = none := by
  simp only [filter_frame_fallible]
  rw [if_neg hok]
  exact ⟨rfl, rfl⟩

/-- Witness for C8 on a dropped frame whose reference clone fails. -/
theorem c8_clone_failure_amended_witness :
    ¬(nextDupCount (fun _ _ => false) ⟨some (), 0⟩ () = 10 ∧
        (fun _ : Option Unit => (0 : Int)) (some ()) < 0) ∧
    ((filter_frame_fallible (fun _ _ => false) 10 ⟨some (), 0⟩ () (some ())
        (fun _ : Option Unit => (0 : Int)) none).1 = 0 ∧
      (filter_frame_fallible (fun _ _ => false) 10 ⟨some (), 0⟩ () (some ())
        (fun _ : Option Unit => (0 : Int)) none).2.1.ref = none) :=
  ⟨by decide,
    c8_clone_failure_amended (fun _ _ => false) 10 ⟨some (), 0⟩ () (some ())
      (fun _ => 0) (by decide)⟩

/-- C9: on every successful call (return code 0) the reference is replaced
by the clone of the current frame — whether or not the frame was emitted. -/
theorem c9_reference_replacement {F : Type} (differs : F → F → Bool)
    (mdc : Nat) (st : DecState F) (cur : F) (emitClone : Option F)
    (ds : Option F → Int) (refClone : F)
    (hok : (filter_frame_fallible differs mdc st cur emitClone ds
      (some refClone)).1 = 0) :
    (filter_frame_fallible differs mdc st cur emitClone ds
      (some refClone)).2.1.ref = some refClone := by
  by_cases hc : nextDupCount differs st cur = mdc ∧ ds emitClone < 0
  · exfalso
    simp only [filter_frame_fallible, if_pos hc] at hok
    have := hc.2
    omega
  · simp only [filter_frame_fallible]
    rw [if_neg hc]

/-- Witness for C9 on an emitting first frame (`min_dup_count = 1`). -/
theorem c9_reference_replacement_witness :
    (filter_frame_fallible (fun _ _ => false) 1 ⟨none, 0⟩ true (some true)
        (fun _ : Option Bool => (0 : Int)) (some true)).1 = 0 ∧
    (filter_frame_fallible (fun _ _ => false) 1 ⟨none, 0⟩ true (some true)
        (fun _ : Option Bool => (0 : Int)) (some true)).2.1.ref = some true :=
  ⟨by decide,
    c9_reference_replacement (fun _ _ => false) 1 ⟨none, 0⟩ true (some true)
      (fun _ => 0) true (by decide)⟩

/-- C10: the first frame of a stream (no reference yet) is emitted iff
`min_dup_count = 1`, because the duplicate counter is incremented to 1
before the equality test. -/
theorem c10_first_frame_emission {F : Type} (differs : F → F → Bool)
    (mdc : Nat) (cur : F) :
    (filter_frame differs mdc (initState F) cur).2 =
      if mdc = 1 then [cur] else [] := by
  unfold filter_frame nextDupCount initState
  rcases eq_or_ne mdc 1 with hm | hm
  · subst hm
    simp
  · have hne : ¬(0 + 1 = mdc) := by omega
    simp [hne, hm]

end ReverseMpdecimate
